import Mathlib

/-!
Verification development for the libuci command-processing substrate
(src/ext/libuci/uci.h and src/ext/libuci/uci.cpp).

The C++ code is shallowly embedded: strings become lists of characters,
the ArgReader cursor becomes a record of the fixed text and a position,
C++ exceptions become explicit error results, and the two loops that are
not structurally terminating in the source (the go word loop and the fen
word loop) are given an explicit fuel parameter, with fuel exhaustion
denoting divergence.
-/

/-- Models std::isspace in the default C locale on ASCII input:
tab (9), newline (10), vertical tab (11), form feed (12),
carriage return (13) and space (32). -/
def isspaceChar (c : Char) : Bool :=
  decide ((9 ≤ c.toNat ∧ c.toNat ≤ 13) ∨ c.toNat = 32)

/-- Decimal digit, as used by strtoll / std::stoll in base 10. -/
def isDigitChar (c : Char) : Bool :=
  decide (48 ≤ c.toNat ∧ c.toNat ≤ 57)

/-- Models uci::ArgReader: a cursor with absolute position m_pos over the
fixed argument text m_arg_str. -/
structure ArgReader where
  arg : List Char
  pos : Nat
deriving DecidableEq, Repr

/-- Models ArgReader::finished: m_pos at or past the end of the text. -/
def ArgReader.finished (r : ArgReader) : Bool :=
  r.arg.length ≤ r.pos

/-- Models ArgReader::read_while: if finished, the empty slice and no
movement; otherwise consume the maximal run of characters satisfying
pred starting at the cursor, returning the consumed slice. -/
def ArgReader.readWhile (r : ArgReader) (pred : Char → Bool) :
    List Char × ArgReader :=
  if r.finished then ([], r)
  else
    let consumed := (r.arg.drop r.pos).takeWhile pred
    (consumed, { r with pos := r.pos + consumed.length })

/-- Models ArgReader::read_until: consume while the predicate does not
hold on the current character. -/
def ArgReader.readUntil (r : ArgReader) (pred : Char → Bool) :
    List Char × ArgReader :=
  if r.finished then ([], r)
  else
    let consumed := (r.arg.drop r.pos).takeWhile (fun c => !pred c)
    (consumed, { r with pos := r.pos + consumed.length })

/-- Models ArgReader::skip_whitespace: read_while over isspace,
keeping only the advanced cursor. -/
def ArgReader.skipWhitespace (r : ArgReader) : ArgReader :=
  (r.readWhile isspaceChar).2

/-- Models ArgReader::peek_remainder: the unread suffix. -/
def ArgReader.peekRemainder (r : ArgReader) : List Char :=
  r.arg.drop r.pos

/-- Models ArgReader::read_word: skip whitespace, then read_until
whitespace. -/
def ArgReader.readWord (r : ArgReader) : List Char × ArgReader :=
  r.skipWhitespace.readUntil isspaceChar

/-- The C++ exceptions that the embedded fragments can raise.
invalidArgument and outOfRange come from std::stoll, badVariantAccess
from std::get on a variant holding another alternative, and inputError
models uci::InputError with its message. -/
inductive CppError
  | invalidArgument
  | outOfRange
  | badVariantAccess
  | inputError (msg : String)
deriving DecidableEq, Repr

/-- Value of a run of decimal digit characters. -/
def digitsVal (ds : List Char) : Nat :=
  ds.foldl (fun n c => n * 10 + (c.toNat - 48)) 0

/-- Largest value of std::int64_t, the long long used by std::stoll. -/
def int64Max : Int := 9223372036854775807

/-- Smallest value of std::int64_t. -/
def int64Min : Int := -9223372036854775808

/-- Models std::stoll on a base 10 numeral: skip leading whitespace,
read an optional sign, then a maximal run of decimal digits. With no
digits it raises std::invalid_argument; with a value outside the
int64 range it raises std::out_of_range; trailing non-digit characters
are ignored. -/
def stoll (s : List Char) : Except CppError Int :=
  let s1 := s.dropWhile isspaceChar
  let sgn : Int := if s1.head? = some '-' then -1 else 1
  let s2 := if s1.head? = some '-' ∨ s1.head? = some '+' then s1.tail else s1
  let ds := s2.takeWhile isDigitChar
  if ds = [] then .error .invalidArgument
  else
    let v : Int := sgn * (digitsVal ds : Int)
    if v < int64Min ∨ int64Max < v then .error .outOfRange
    else .ok v

/-- Models ArgReader::try_read_int: remember the position, skip
whitespace, read a word and hand it to stoll. Only
std::invalid_argument is caught (restoring the cursor and returning no
value); any other exception, in particular std::out_of_range,
propagates. -/
def ArgReader.tryReadInt (r : ArgReader) :
    Except CppError (Option Int × ArgReader) :=
  let posBefore := r.pos
  let r1 := r.skipWhitespace
  let wordAndReader := r1.readWord
  match stoll wordAndReader.1 with
  | .ok n => .ok (some n, wordAndReader.2)
  | .error .invalidArgument => .ok (none, { wordAndReader.2 with pos := posBefore })
  | .error e => .error e

/-- Models ArgReader::read_int: try_read_int, raising
InputError on a missing value. -/
def ArgReader.readInt (r : ArgReader) : Except CppError (Int × ArgReader) :=
  match r.tryReadInt with
  | .ok (some n, r1) => .ok (n, r1)
  | .ok (none, _) => .error (.inputError "Expected an integer number.")
  | .error e => .error e

example : ArgReader.tryReadInt ⟨"  42  rest".data, 0⟩
    = .ok (some 42, ⟨"  42  rest".data, 4⟩) := rfl

example : ArgReader.tryReadInt ⟨"abc".data, 0⟩
    = .ok (none, ⟨"abc".data, 0⟩) := rfl

example : ArgReader.tryReadInt ⟨"99999999999999999999".data, 0⟩
    = .error .outOfRange := rfl

/-- Models uci::GoArgs from uci.h. All limit fields start absent and
infinite starts true. -/
structure GoArgs where
  depth : Option Int := none
  w_time : Option Int := none
  w_inc : Option Int := none
  b_time : Option Int := none
  b_inc : Option Int := none
  move_time : Option Int := none
  nodes : Option Int := none
  infinite : Bool := true
deriving DecidableEq, Repr

/-- The recognized go keywords that consume one following integer. -/
def isGoKey (word : List Char) : Bool :=
  word = "wtime".data || word = "winc".data || word = "btime".data ||
  word = "binc".data || word = "nodes".data || word = "depth".data ||
  word = "movetime".data

/-- Stores a parsed integer into the GoArgs field selected by the
keyword, mirroring the if chain in register_go. -/
def setGoKey (args : GoArgs) (word : List Char) (n : Int) : GoArgs :=
  if word = "wtime".data then { args with w_time := some n }
  else if word = "winc".data then { args with w_inc := some n }
  else if word = "btime".data then { args with b_time := some n }
  else if word = "binc".data then { args with b_inc := some n }
  else if word = "nodes".data then { args with nodes := some n }
  else if word = "depth".data then { args with depth := some n }
  else if word = "movetime".data then { args with move_time := some n }
  else args

/-- Models the word loop of the go handler in register_go. The fuel
parameter bounds the number of iterations; none means the loop did not
finish within the given fuel. Note that the branch for the word
infinite executes continue without reading another word, exactly as in
the source. -/
def goLoopF : Nat → ArgReader → GoArgs → List Char → Option (Except CppError GoArgs)
  | 0, _, _, _ => none
  | fuel + 1, r, args, word =>
    if word = [] then some (.ok args)
    else if word = "infinite".data then
      if args.infinite = false then
        some (.error (.inputError "Unexpected infinite to go when limits were specified."))
      else
        goLoopF fuel r args word
    else
      let args1 := { args with infinite := false }
      if isGoKey word then
        match r.readInt with
        | .error e => some (.error e)
        | .ok (n, r1) =>
          let wordAndReader := r1.readWord
          goLoopF fuel wordAndReader.2 (setGoKey args1 word n) wordAndReader.1
      else
        some (.error (.inputError ("Unexpected argument for go: " ++ String.mk word)))

/-- Models the whole go handler on its argument text: read the first
word, then run the word loop. -/
def runGo (fuel : Nat) (argText : String) : Option (Except CppError GoArgs) :=
  let r : ArgReader := ⟨argText.data, 0⟩
  let wordAndReader := r.readWord
  goLoopF fuel wordAndReader.2 {} wordAndReader.1

example : runGo 8 "wtime 60000 winc 1000"
    = some (.ok { w_time := some 60000, w_inc := some 1000, infinite := false }) := rfl

example : runGo 8 "depth 5x"
    = some (.ok { depth := some 5, infinite := false }) := rfl

example : runGo 8 "" = some (.ok {}) := rfl

/-- Models uci::PositionArgs. -/
structure PositionArgs where
  fen : List Char
  moves : List (List Char)
deriving DecidableEq, Repr

/-- The startpos FEN literal from register_position. -/
def startposFen : List Char :=
  "rnbqkbnr/pppppppp/8/8/8/8/PPPPPPPP/RNBQKBNR w KQkq - 0 1".data

/-- Models the fen word collection loop of register_position: while not
finished, skip whitespace, stop before a literal moves remainder,
otherwise append the next word followed by one space character. -/
def posFenLoopF : Nat → ArgReader → List Char → Option (List Char × ArgReader)
  | 0, _, _ => none
  | fuel + 1, r, acc =>
    if r.finished then some (acc, r)
    else
      let r1 := r.skipWhitespace
      let rem := r1.peekRemainder
      if 5 ≤ rem.length ∧ rem.take 5 = "moves".data then some (acc, r1)
      else
        let wordAndReader := r1.readWord
        posFenLoopF fuel wordAndReader.2 (acc ++ wordAndReader.1 ++ [' '])

/-- Models the move token collection loop of register_position. -/
def posMovesLoopF : Nat → ArgReader → List (List Char) → Option (List (List Char) × ArgReader)
  | 0, _, _ => none
  | fuel + 1, r, acc =>
    let wordAndReader := r.readWord
    if wordAndReader.1 = [] then some (acc, wordAndReader.2)
    else posMovesLoopF fuel wordAndReader.2 (acc ++ [wordAndReader.1])

/-- Models the tail of the position handler after the fen text is
known: an optional moves keyword followed by verbatim move tokens. -/
def posAfterFen (fuel : Nat) (fen : List Char) (r : ArgReader) :
    Option (Except CppError PositionArgs) :=
  let wordAndReader := r.readWord
  if wordAndReader.1 = [] then some (.ok ⟨fen, []⟩)
  else if wordAndReader.1 ≠ "moves".data then
    some (.error (.inputError ("Unexpected argument to position: " ++ String.mk wordAndReader.1)))
  else
    match posMovesLoopF fuel wordAndReader.2 [] with
    | none => none
    | some (ms, _) => some (.ok ⟨fen, ms⟩)

/-- Models the whole position handler of register_position on its
argument text. -/
def runPosition (fuel : Nat) (argText : String) : Option (Except CppError PositionArgs) :=
  let r : ArgReader := ⟨argText.data, 0⟩
  let wordAndReader := r.readWord
  let word := wordAndReader.1
  let r1 := wordAndReader.2
  if word = "startpos".data then posAfterFen fuel startposFen r1
  else if word = "fen".data then
    match posFenLoopF fuel r1 [] with
    | none => none
    | some (fen, r2) => posAfterFen fuel fen r2
  else if word = [] then
    some (.error (.inputError "Expected a position specifier (fen or startpos)"))
  else
    some (.error (.inputError ("Unexpected argument to position: " ++ String.mk word)))

example : runPosition 64 "startpos moves e2e4 e7e5"
    = some (.ok ⟨startposFen, ["e2e4".data, "e7e5".data]⟩) := rfl

example : runPosition 64 "fen 8/8/8/8/8/8/8/8 w - - 0 1 moves"
    = some (.ok ⟨"8/8/8/8/8/8/8/8 w - - 0 1 ".data, []⟩) := rfl

/-- Models uci::OptionValue, the variant over monostate, int64, string
and bool. The constructor order matches the variant alternative order. -/
inductive OptionValue
  | monostate
  | int (i : Int)
  | str (s : String)
  | bool (b : Bool)
deriving DecidableEq, Repr

/-- The variant index, as returned by OptionValue::index() and used by
Option::type(). -/
def OptionValue.index : OptionValue → Nat
  | .monostate => 0
  | .int _ => 1
  | .str _ => 2
  | .bool _ => 3

/-- Models enum class uci::OptionType. -/
inductive OptionType
  | Button
  | Spin
  | String
  | Check
deriving DecidableEq, Repr

/-- Models the stream output operator for OptionType in uci.cpp. The
switch handles Spin, String and Check and sends every other value,
including Button, to the default case. -/
def optionTypeStr : OptionType → String
  | .Spin => "spin"
  | .String => "string"
  | .Check => "check"
  | _ => "unknown"

/-- Which registration function created an option. This determines the
wrapper lambda stored as the change_handler of the entry: see
register_button_option, register_check_option, register_spin_option and
register_string_option in uci.cpp. -/
inductive RegKind
  | button
  | check
  | spin
  | string
deriving DecidableEq, Repr

/-- The argument with which the wrapper lambda invokes the user supplied
handler (after extracting it from the OptionValue). -/
inductive HandlerArg
  | unit
  | int (i : Int)
  | str (s : String)
  | bool (b : Bool)
deriving DecidableEq, Repr

/-- Result of running a wrapper lambda on an OptionValue: either the
user handler was called once with the extracted argument, or std::get
inside the wrapper raised std::bad_variant_access. -/
inductive WrapperResult
  | called (arg : HandlerArg)
  | badAccess
deriving DecidableEq, Repr

/-- The wrapper lambdas from the four registration functions.
The button wrapper ignores the value and calls the trigger handler.
The check wrapper applies std::get over int64 to the value, although a
check option always holds a bool, and converts the result to bool for
the user handler. The spin and string wrappers extract their matching
alternative. -/
def wrapperCall : RegKind → OptionValue → WrapperResult
  | .button, _ => .called .unit
  | .check, v =>
    match v with
    | .int i => .called (.bool (i != 0))
    | _ => .badAccess
  | .spin, v =>
    match v with
    | .int i => .called (.int i)
    | _ => .badAccess
  | .string, v =>
    match v with
    | .str s => .called (.str s)
    | _ => .badAccess

/-- Models struct Option from uci.cpp (renamed because Option is the
Lean builtin): the current value, the registration kind standing for
the stored change_handler wrapper, and the spin bounds. The name is
carried here to form error messages, standing for the map key. -/
structure UciOption where
  name : String
  current : OptionValue
  regKind : RegKind
  min : Int := 0
  max : Int := 0
deriving DecidableEq, Repr

/-- Observable outcome of set_option on one registry entry. ok means a
normal return with the state replaced and the handler called exactly
once with the given argument. typeError is the std::invalid_argument
raised on a variant index mismatch, with the entry untouched.
rangeFault is the InputError raised on a spin bound violation, with the
entry untouched. handlerCrash means the current value was already
replaced but the wrapper then raised std::bad_variant_access, so the
user handler was never called. -/
inductive SetOutcome
  | ok (state : UciOption) (handlerArg : HandlerArg)
  | typeError (state : UciOption)
  | rangeFault (msg : String) (state : UciOption)
  | handlerCrash (state : UciOption)
deriving DecidableEq, Repr

/-- The tail of set_option after validation: opt.current = value, then
opt.change_handler(value). -/
def finishSet (opt : UciOption) (value : OptionValue) : SetOutcome :=
  let opt1 := { opt with current := value }
  match wrapperCall opt.regKind value with
  | .called a => .ok opt1 a
  | .badAccess => .handlerCrash opt1

/-- Models uci::set_option on an existing entry: reject a variant index
mismatch with std::invalid_argument, enforce the spin bounds with
InputError messages naming the violated bound, then replace the value
and invoke the change handler. -/
def setOption (opt : UciOption) (value : OptionValue) : SetOutcome :=
  if opt.current.index ≠ value.index then .typeError opt
  else if opt.current.index = 1 then
    match value with
    | .int v =>
      if opt.max < v then
        .rangeFault ("Maximum value for option " ++ opt.name ++ " is " ++ toString opt.max ++ ".") opt
      else if v < opt.min then
        .rangeFault ("Minimum value for option " ++ opt.name ++ " is " ++ toString opt.min ++ ".") opt
      else finishSet opt value
    | _ => .typeError opt
  else finishSet opt value

example : setOption ⟨"Hash", OptionValue.int 32, RegKind.spin, 1, 1024⟩ (OptionValue.int 64)
    = SetOutcome.ok ⟨"Hash", OptionValue.int 64, RegKind.spin, 1, 1024⟩ (HandlerArg.int 64) := rfl

example : setOption ⟨"Ponder", OptionValue.bool false, RegKind.check, 0, 0⟩ (OptionValue.bool true)
    = SetOutcome.handlerCrash ⟨"Ponder", OptionValue.bool true, RegKind.check, 0, 0⟩ := rfl

/-- Models struct uci::OptionInfo. In the source min and max are
OptionValue fields always filled from the int64 bounds of the entry. -/
structure OptionInfo where
  current_value : OptionValue
  name : String
  type : OptionType
  default_value : OptionValue
  min : OptionValue
  max : OptionValue
deriving DecidableEq, Repr

/-- Models std::get over the int64 alternative. -/
def getIntAlt : OptionValue → Option Int
  | .int i => some i
  | _ => none

/-- Models std::get over the string alternative. -/
def getStrAlt : OptionValue → Option String
  | .str s => some s
  | _ => none

/-- Models std::get over the bool alternative. -/
def getBoolAlt : OptionValue → Option Bool
  | .bool b => some b
  | _ => none

/-- Models the option line printed per registered option by the uci
command handler in register_uci: the base text, then the default and
bound fields selected by the switch over the option type, whose default
case prints nothing further. none stands for a std::get failure. -/
def uciOptionLine (o : OptionInfo) : Option String :=
  let base := "option " ++ o.name ++ " type " ++ optionTypeStr o.type
  match o.type with
  | .Spin => do
    let d ← getIntAlt o.default_value
    let mn ← getIntAlt o.min
    let mx ← getIntAlt o.max
    pure (base ++ " default " ++ toString d ++ " min " ++ toString mn ++ " max " ++ toString mx)
  | .String => do
    let d ← getStrAlt o.default_value
    pure (base ++ " default " ++ d)
  | .Check => do
    let b ← getBoolAlt o.default_value
    pure (base ++ " default " ++ (if b then "true" else "false"))
  | .Button => some base

example : uciOptionLine ⟨OptionValue.monostate, "Clear Hash", OptionType.Button,
    OptionValue.monostate, OptionValue.int 0, OptionValue.int 0⟩
    = some "option Clear Hash type unknown" := rfl

example : uciOptionLine ⟨OptionValue.int 32, "Hash", OptionType.Spin,
    OptionValue.int 32, OptionValue.int 1, OptionValue.int 1024⟩
    = some "option Hash type spin default 32 min 1 max 1024" := rfl

/-- C++ integer division, which truncates toward zero. -/
def cppIntDiv (a b : Int) : Int :=
  let q : Nat := a.natAbs / b.natAbs
  if (decide (0 ≤ a)) == (decide (0 ≤ b)) then (q : Int) else -(q : Int)

/-- Models struct uci::info::Score. -/
structure Score where
  score : Int
  allow_mate_scores : Bool
  mate_score : Int := 0
  mate_threshold : Int := 0
deriving DecidableEq, Repr

/-- Models the one argument Score constructor: mate scores disabled. -/
def Score.ofScore (s : Int) : Score :=
  { score := s, allow_mate_scores := false }

/-- Models the three argument Score constructor: mate_score is the
absolute value of the mate argument and mate_threshold is the mate
argument minus max_mate_plies. -/
def Score.ofMate (s m maxMatePlies : Int) : Score :=
  { score := s
    allow_mate_scores := true
    mate_score := (m.natAbs : Int)
    mate_threshold := m - maxMatePlies }

/-- Models the stream output operator for Score: centipawns when mate
scores are disabled or the absolute score is below the threshold,
otherwise the mate distance in moves with the sign chosen by comparing
the score with zero. -/
def scoreFragment (sc : Score) : String :=
  if sc.allow_mate_scores = false ∨ (sc.score.natAbs : Int) < sc.mate_threshold then
    "score cp " ++ toString sc.score
  else
    let plies : Int := sc.mate_score - (sc.score.natAbs : Int)
    let moves : Int := cppIntDiv (plies + 1) 2
    "score mate " ++ toString (if 0 < sc.score then moves else -moves)

example : scoreFragment (Score.ofScore 250) = "score cp 250" := rfl
example : scoreFragment (Score.ofMate 990 1000 10) = "score mate 5" := rfl
example : scoreFragment (Score.ofMate (-990) 1000 10) = "score mate -5" := rfl
example : scoreFragment (Score.ofMate 500 1000 10) = "score cp 500" := rfl

/-- The claimed Score rule, written from the words of the claim: plies
is the mate constant minus the absolute score, moves is plies plus one
divided by two with integer division, and the sign of the emitted mate
distance is the sign of the raw score. -/
def scoreSpecClaim (s m t : Int) : String :=
  if (s.natAbs : Int) < m - t then
    "score cp " ++ toString s
  else
    let plies : Int := m - (s.natAbs : Int)
    let moves : Int := cppIntDiv (plies + 1) 2
    "score mate " ++ toString (if 0 < s then moves else -moves)

/-- The amended Score rule: as the claim, except that plies is the
absolute value of the mate constant minus the absolute score, and a
score of zero takes the negative sign. -/
def scoreSpecAmended (s m t : Int) : String :=
  if (s.natAbs : Int) < m - t then
    "score cp " ++ toString s
  else
    let plies : Int := (m.natAbs : Int) - (s.natAbs : Int)
    let moves : Int := cppIntDiv (plies + 1) 2
    "score mate " ++ toString (if 0 < s then moves else -moves)

/-- Phase of the dedicated worker thread of WorkThread::run: parked or
checking the wait predicate under the lock, inside a task body, or
exited after observing the kill flag. -/
inductive ThreadPhase
  | waiting
  | executing
  | exited
deriving DecidableEq, Repr

/-- The cross thread state of a WorkThread: whether the task slot
m_task is occupied, the cooperative stop flag, the kill flag, and the
phase of the dedicated thread. -/
structure WorkerState where
  task : Bool
  stop : Bool
  kill : Bool
  phase : ThreadPhase
deriving DecidableEq, Repr

/-- The state right after the WorkThread constructor: empty slot, both
flags clear, thread parked. -/
def initWorker : WorkerState := ⟨false, false, false, .waiting⟩

/-- The atomic transitions of a WorkThread, one per critical section of
uci.cpp. submit is submit_task: install the task and clear the stop
flag. stopReq is stop_current_task: raise the stop flag. killReq is the
destructor raising m_kill. pickup is the thread passing the wait
predicate with a task and no kill: it empties the slot and enters the
task body. threadExit is the thread observing the kill flag. bodyDone
is the task body returning. -/
inductive WorkerStep : WorkerState → WorkerState → Prop
  | submit (s : WorkerState) :
      WorkerStep s { s with task := true, stop := false }
  | stopReq (s : WorkerState) :
      WorkerStep s { s with stop := true }
  | killReq (s : WorkerState) :
      WorkerStep s { s with kill := true }
  | pickup (s : WorkerState) (ht : s.task = true) (hk : s.kill = false)
      (hp : s.phase = .waiting) :
      WorkerStep s { s with task := false, phase := .executing }
  | threadExit (s : WorkerState) (hk : s.kill = true) (hp : s.phase = .waiting) :
      WorkerStep s { s with phase := .exited }
  | bodyDone (s : WorkerState) (hp : s.phase = .executing) :
      WorkerStep s { s with phase := .waiting }

/-- States reachable from the freshly constructed WorkThread. -/
inductive WorkerReachable : WorkerState → Prop
  | init : WorkerReachable initWorker
  | step (s t : WorkerState) : WorkerReachable s → WorkerStep s t → WorkerReachable t

/-- Models WorkThread::running, and with it work_thread_running once
the thread exists: m_task is not null. -/
def workThreadRunning (s : WorkerState) : Bool := s.task

/-- The reachable state in which the thread is inside a task body and
the slot is already empty. -/
def bodyRunningState : WorkerState := ⟨false, false, false, .executing⟩

example : workThreadRunning bodyRunningState = false := rfl

theorem takeWhile_head_false (p : Char → Bool) (l : List Char)
    (h : ∀ c, l.head? = some c → p c = false) :
    l.takeWhile p = [] := by
  cases l with
  | nil => rfl
  | cons a l' => simp [List.takeWhile_cons, h a rfl]

theorem takeWhile_all_true (p : Char → Bool) (l : List Char)
    (h : ∀ c ∈ l, p c = true) :
    l.takeWhile p = l := by
  induction l with
  | nil => rfl
  | cons a l' ih =>
    have ha := h a (List.mem_cons_self a l')
    simp [List.takeWhile_cons, ha, ih fun c hc => h c (List.mem_cons_of_mem a hc)]

theorem takeWhile_append_all (p : Char → Bool) (as bs : List Char)
    (h1 : ∀ a ∈ as, p a = true)
    (h2 : ∀ c, bs.head? = some c → p c = false) :
    (as ++ bs).takeWhile p = as := by
  induction as with
  | nil => simpa using takeWhile_head_false p bs h2
  | cons a as' ih =>
    have ha := h1 a (List.mem_cons_self a as')
    simp [List.takeWhile_cons, ha, ih fun c hc => h1 c (List.mem_cons_of_mem a hc)]

theorem dropWhile_head_false (p : Char → Bool) (l : List Char)
    (h : ∀ c, l.head? = some c → p c = false) :
    l.dropWhile p = l := by
  cases l with
  | nil => rfl
  | cons a l' => simp [List.dropWhile_cons, h a rfl]

theorem digit_not_space (c : Char) (h : isDigitChar c = true) :
    isspaceChar c = false := by
  simp only [isDigitChar, decide_eq_true_eq] at h
  simp only [isspaceChar, decide_eq_false_iff_not]
  omega

theorem digit_ne_minus (c : Char) (h : isDigitChar c = true) : c ≠ '-' := by
  intro e
  rw [e] at h
  exact absurd h (by decide)

theorem digit_ne_plus (c : Char) (h : isDigitChar c = true) : c ≠ '+' := by
  intro e
  rw [e] at h
  exact absurd h (by decide)

theorem skipWhitespace_no_space (l : List Char)
    (h : ∀ c, l.head? = some c → isspaceChar c = false) :
    ArgReader.skipWhitespace ⟨l, 0⟩ = ⟨l, 0⟩ := by
  cases l with
  | nil => rfl
  | cons a l' =>
    simp [ArgReader.skipWhitespace, ArgReader.readWhile, ArgReader.finished,
      takeWhile_head_false _ _ h]

theorem readUntil_space_none (l : List Char) (hne : l ≠ [])
    (hl : ∀ c ∈ l, isspaceChar c = false) :
    ArgReader.readUntil ⟨l, 0⟩ isspaceChar = (l, ⟨l, l.length⟩) := by
  have hfin : (⟨l, 0⟩ : ArgReader).finished = false := by
    simp [ArgReader.finished]
    cases l with
    | nil => exact absurd rfl hne
    | cons a l' => simp
  have htake : l.takeWhile (fun c => !isspaceChar c) = l :=
    takeWhile_all_true _ _ fun c hc => by simp [hl c hc]
  simp [ArgReader.readUntil, hfin, htake]

theorem readWord_no_space (l : List Char) (hne : l ≠ [])
    (hl : ∀ c ∈ l, isspaceChar c = false) :
    ArgReader.readWord ⟨l, 0⟩ = (l, ⟨l, l.length⟩) := by
  have hskip : ArgReader.skipWhitespace ⟨l, 0⟩ = ⟨l, 0⟩ :=
    skipWhitespace_no_space l fun c hc => hl c (List.mem_of_mem_head? hc)
  rw [ArgReader.readWord, hskip]
  exact readUntil_space_none l hne hl

theorem stoll_digits (ds rest : List Char) (hne : ds ≠ [])
    (hds : ∀ c ∈ ds, isDigitChar c = true)
    (hrest : ∀ c, rest.head? = some c → isDigitChar c = false)
    (hmax : (digitsVal ds : Int) ≤ 9223372036854775807) :
    stoll (ds ++ rest) = .ok (digitsVal ds) := by
  obtain ⟨d, ds', rfl⟩ : ∃ d ds', ds = d :: ds' := by
    cases ds with
    | nil => exact absurd rfl hne
    | cons d ds' => exact ⟨d, ds', rfl⟩
  have hd : isDigitChar d = true := hds d (List.mem_cons_self d ds')
  have hdrop : ((d :: ds') ++ rest).dropWhile isspaceChar = (d :: ds') ++ rest :=
    dropWhile_head_false _ _ fun c hc => by
      simp only [List.cons_append, List.head?_cons, Option.some.injEq] at hc
      rw [← hc]
      exact digit_not_space d hd
  have hnm : ¬ ((d :: ds') ++ rest).head? = some '-' := by
    simp only [List.cons_append, List.head?_cons, Option.some.injEq]
    exact digit_ne_minus d hd
  have hnp : ¬ ((d :: ds') ++ rest).head? = some '+' := by
    simp only [List.cons_append, List.head?_cons, Option.some.injEq]
    exact digit_ne_plus d hd
  have htake : ((d :: ds') ++ rest).takeWhile isDigitChar = d :: ds' :=
    takeWhile_append_all _ _ _ hds hrest
  have hnonneg : (0 : Int) ≤ (digitsVal (d :: ds') : Int) := Int.natCast_nonneg _
  simp only [stoll]
  rw [hdrop, if_neg hnm, if_neg (not_or.mpr ⟨hnm, hnp⟩), htake]
  rw [if_neg (by simp : ¬ (d :: ds' = []))]
  rw [if_neg (by simp only [one_mul, int64Min, int64Max]; omega)]
  rw [one_mul]

theorem tryReadInt_digits (ds ts : List Char) (hne : ds ≠ [])
    (hds : ∀ c ∈ ds, isDigitChar c = true)
    (hts1 : ∀ c ∈ ts, isspaceChar c = false)
    (hts2 : ∀ c, ts.head? = some c → isDigitChar c = false)
    (hmax : (digitsVal ds : Int) ≤ 9223372036854775807) :
    ArgReader.tryReadInt ⟨ds ++ ts, 0⟩
      = .ok (some (digitsVal ds), ⟨ds ++ ts, (ds ++ ts).length⟩) := by
  have hall : ∀ c ∈ ds ++ ts, isspaceChar c = false := by
    intro c hc
    rcases List.mem_append.mp hc with h | h
    · exact digit_not_space c (hds c h)
    · exact hts1 c h
  have happne : ds ++ ts ≠ [] := by
    cases ds with
    | nil => exact absurd rfl hne
    | cons d ds' => simp
  have hskip : ArgReader.skipWhitespace ⟨ds ++ ts, 0⟩ = ⟨ds ++ ts, 0⟩ :=
    skipWhitespace_no_space _ fun c hc => hall c (List.mem_of_mem_head? hc)
  have hword : ArgReader.readWord ⟨ds ++ ts, 0⟩ = (ds ++ ts, ⟨ds ++ ts, (ds ++ ts).length⟩) :=
    readWord_no_space _ happne hall
  have hstoll : stoll (ds ++ ts) = .ok (digitsVal ds) :=
    stoll_digits ds ts hne hds hts2 hmax
  simp only [ArgReader.tryReadInt, hskip, hword, hstoll]

/-- Claim C1: after a successful set of a matching kind value, the
change handler runs exactly once with the new value, for every kind
including check options. The code refutes this for check options: the
wrapper stored by register_check_option extracts the int64 alternative
from a bool carrying variant, so set_option on a check option replaces
the current value and then raises std::bad_variant_access, and the user
handler is never invoked. -/
theorem claim_C1_check_option_set_crashes :
    setOption ⟨"Ponder", OptionValue.bool false, RegKind.check, 0, 0⟩ (OptionValue.bool true)
      = SetOutcome.handlerCrash ⟨"Ponder", OptionValue.bool true, RegKind.check, 0, 0⟩
    ∧ wrapperCall RegKind.check (OptionValue.bool true) = WrapperResult.badAccess :=
  ⟨rfl, rfl⟩

/-- Claim C2: the uci handler names the kind of a Trigger option
button. The code refutes this: the stream output operator for
OptionType handles Spin, String and Check and prints unknown for every
other value, so a button option line reads type unknown. The other
three kind names match the claim. -/
theorem claim_C2_button_kind_prints_unknown :
    optionTypeStr OptionType.Button = "unknown"
    ∧ uciOptionLine ⟨OptionValue.monostate, "Clear Hash", OptionType.Button,
        OptionValue.monostate, OptionValue.int 0, OptionValue.int 0⟩
      = some "option Clear Hash type unknown"
    ∧ optionTypeStr OptionType.Spin = "spin"
    ∧ optionTypeStr OptionType.String = "string"
    ∧ optionTypeStr OptionType.Check = "check" :=
  ⟨rfl, rfl, rfl, rfl, rfl⟩

/-- In the go word loop, the word infinite with the infinite flag still
set makes no progress: the continue statement skips the read of the
next word, so the same iteration repeats for every amount of fuel. -/
theorem goLoopF_infinite_stuck (r : ArgReader) (args : GoArgs)
    (h : args.infinite = true) :
    ∀ fuel, goLoopF fuel r args "infinite".data = none := by
  intro fuel
  induction fuel with
  | zero => rfl
  | succ n ih =>
    show goLoopF (n + 1) r args "infinite".data = none
    rw [goLoopF]
    rw [if_neg (by decide), if_pos rfl, if_neg (by simp [h])]
    exact ih

/-- Claim C3: the go word loop terminates on every argument line, in
particular on the line infinite. The code refutes this: on the
argument line infinite the handler loops forever, because the branch
for the word infinite does not read the next word, so no amount of
fuel lets the loop model produce a result. -/
theorem claim_C3_go_infinite_never_returns (fuel : Nat) :
    runGo fuel "infinite" = none := by
  have h : runGo fuel "infinite"
      = goLoopF fuel ⟨"infinite".data, 8⟩ {} "infinite".data := rfl
  rw [h]
  exact goLoopF_infinite_stuck _ _ rfl fuel

theorem claim_C3_witness : runGo 5 "infinite" = none :=
  claim_C3_go_infinite_never_returns 5

/-- Claim C4 counterexample: parsing the fen position line of the claim
does yield an empty move list, but the fen text carries one trailing
space, because the collection loop appends a space after every word.
It is therefore not the exact text stated in the claim. -/
theorem claim_C4_counterexample :
    runPosition 64 "fen 8/8/8/8/8/8/8/8 w - - 0 1 moves"
      = some (.ok ⟨"8/8/8/8/8/8/8/8 w - - 0 1 ".data, []⟩)
    ∧ "8/8/8/8/8/8/8/8 w - - 0 1 ".data ≠ "8/8/8/8/8/8/8/8 w - - 0 1".data :=
  ⟨rfl, by decide⟩

/-- Claim C4 as amended: parsing the line position fen
8/8/8/8/8/8/8/8 w - - 0 1 moves produces an empty move list and the
fen words each followed by a single space, leaving a trailing space
after the final 1. -/
theorem claim_C4_fen_collects_words :
    runPosition 64 "fen 8/8/8/8/8/8/8/8 w - - 0 1 moves"
      = some (.ok ⟨"8/8/8/8/8/8/8/8 w - - 0 1 ".data, []⟩) := rfl

/-- Claim C5: work_thread_running is true whenever a task is installed
or executing. The code refutes this: the run loop empties the task
slot before invoking the task body, and running only checks the slot,
so in the reachable state in which the thread is inside a task body
and the slot is empty, work_thread_running returns false. -/
theorem claim_C5_running_false_during_body :
    WorkerReachable bodyRunningState
    ∧ bodyRunningState.phase = ThreadPhase.executing
    ∧ workThreadRunning bodyRunningState = false := by
  refine ⟨?_, rfl, rfl⟩
  have h1 : WorkerReachable ⟨true, false, false, .waiting⟩ :=
    WorkerReachable.step _ _ WorkerReachable.init (WorkerStep.submit _)
  exact WorkerReachable.step _ _ h1 (WorkerStep.pickup _ rfl rfl rfl)

/-- Claim C8: try_read_int never raises and restores the cursor when no
value is produced. The code refutes the never raises part: a numeral
beyond the int64 range makes std::stoll raise std::out_of_range, which
the catch clause for std::invalid_argument does not cover, so it
propagates out of try_read_int. The two concrete examples of the claim
do hold: reading 42 from two leading spaces leaves the cursor right
after the 42, and reading from abc returns no value with the cursor
restored to position 0. -/
theorem claim_C8_try_read_int_can_raise :
    ArgReader.tryReadInt ⟨"99999999999999999999".data, 0⟩ = .error CppError.outOfRange
    ∧ ArgReader.tryReadInt ⟨"  42  rest".data, 0⟩ = .ok (some 42, ⟨"  42  rest".data, 4⟩)
    ∧ ArgReader.tryReadInt ⟨"abc".data, 0⟩ = .ok (none, ⟨"abc".data, 0⟩) :=
  ⟨rfl, rfl, rfl⟩

/-- Claim C6: for a registered spin option with well formed bounds,
set succeeds exactly when the value lies in the inclusive range, the
boundary values included, and an out of range value fails with an
InputError naming the violated bound while the entry is untouched. -/
theorem claim_C6_spin_set_bounds (opt : UciOption) (c v : Int)
    (hk : opt.regKind = RegKind.spin) (hc : opt.current = OptionValue.int c)
    (hwf : opt.min ≤ opt.max) :
    (setOption opt (OptionValue.int v)
        = SetOutcome.ok { opt with current := OptionValue.int v } (HandlerArg.int v)
      ↔ opt.min ≤ v ∧ v ≤ opt.max)
    ∧ (opt.max < v → setOption opt (OptionValue.int v)
        = SetOutcome.rangeFault
            ("Maximum value for option " ++ opt.name ++ " is " ++ toString opt.max ++ ".") opt)
    ∧ (v < opt.min → setOption opt (OptionValue.int v)
        = SetOutcome.rangeFault
            ("Minimum value for option " ++ opt.name ++ " is " ++ toString opt.min ++ ".") opt) := by
  have hset : setOption opt (OptionValue.int v)
      = if opt.max < v then
          SetOutcome.rangeFault
            ("Maximum value for option " ++ opt.name ++ " is " ++ toString opt.max ++ ".") opt
        else if v < opt.min then
          SetOutcome.rangeFault
            ("Minimum value for option " ++ opt.name ++ " is " ++ toString opt.min ++ ".") opt
        else SetOutcome.ok { opt with current := OptionValue.int v } (HandlerArg.int v) := by
    simp [setOption, hc, OptionValue.index, finishSet, wrapperCall, hk]
  refine ⟨?_, ?_, ?_⟩
  · rw [hset]
    constructor
    · intro hok
      by_cases h1 : opt.max < v
      · rw [if_pos h1] at hok
        exact absurd hok (by simp)
      · by_cases h2 : v < opt.min
        · rw [if_neg h1, if_pos h2] at hok
          exact absurd hok (by simp)
        · omega
    · rintro ⟨h1, h2⟩
      rw [if_neg (by omega), if_neg (by omega)]
  · intro h1
    rw [hset, if_pos h1]
  · intro h2
    rw [hset, if_neg (by omega), if_pos h2]

theorem claim_C6_witness :
    setOption ⟨"Hash", OptionValue.int 16, RegKind.spin, 1, 64⟩ (OptionValue.int 64)
      = SetOutcome.ok ⟨"Hash", OptionValue.int 64, RegKind.spin, 1, 64⟩ (HandlerArg.int 64) := by
  have h := (claim_C6_spin_set_bounds ⟨"Hash", OptionValue.int 16, RegKind.spin, 1, 64⟩
    16 64 rfl rfl (by decide)).1
  exact h.mpr (by decide)

/-- Claim C7: setting a value whose variant index differs from the
declared kind of the option raises the type mismatch error before any
mutation, so the entry is returned untouched and no handler runs. -/
theorem claim_C7_kind_mismatch_rejected (opt : UciOption) (v : OptionValue)
    (h : opt.current.index ≠ v.index) :
    setOption opt v = SetOutcome.typeError opt := by
  unfold setOption
  rw [if_pos h]

theorem claim_C7_witness :
    setOption ⟨"Ponder", OptionValue.bool false, RegKind.check, 0, 0⟩ (OptionValue.int 3)
      = SetOutcome.typeError ⟨"Ponder", OptionValue.bool false, RegKind.check, 0, 0⟩ :=
  claim_C7_kind_mismatch_rejected _ _ (by decide)

/-- Claim C9 counterexample: at score 1 with mate constant -8 and
threshold 2 the code prints score mate 4, because it takes the absolute
value of the mate constant when computing plies, while the formula of
the claim, with plies equal to the mate constant minus the absolute
score, yields score mate -4. -/
theorem claim_C9_counterexample :
    scoreFragment (Score.ofMate 1 (-8) 2) = "score mate 4"
    ∧ scoreSpecClaim 1 (-8) 2 = "score mate -4" :=
  ⟨rfl, rfl⟩

/-- Claim C9 as amended: the Score fragment follows the claimed rule
with plies computed from the absolute value of the mate constant, and
a non positive score taking the negative sign. The two concrete
examples of the claim hold as stated. -/
theorem claim_C9_score_rule (s m t : Int) :
    scoreFragment (Score.ofMate s m t) = scoreSpecAmended s m t
    ∧ scoreFragment (Score.ofScore s) = "score cp " ++ toString s
    ∧ scoreFragment (Score.ofScore 250) = "score cp 250"
    ∧ scoreFragment (Score.ofMate 990 1000 10) = "score mate 5" := by
  refine ⟨?_, rfl, rfl, rfl⟩
  by_cases h : (s.natAbs : Int) < m - t
  · simp [scoreFragment, Score.ofMate, scoreSpecAmended, h]
  · simp [scoreFragment, Score.ofMate, scoreSpecAmended, h]

theorem claim_C9_witness :
    scoreFragment (Score.ofMate 990 1000 10) = scoreSpecAmended 990 1000 10 :=
  (claim_C9_score_rule 990 1000 10).1

/-- Claim C10: a word made of a run of decimal digits followed by non
digit trailing characters is accepted by try_read_int and read_int:
both return the value of the digit run and consume the whole word,
and consequently the go line depth 5x parses with depth 5. -/
theorem claim_C10_numeric_word (ds ts : List Char) (hne : ds ≠ [])
    (hds : ∀ c ∈ ds, isDigitChar c = true)
    (hts1 : ∀ c ∈ ts, isspaceChar c = false)
    (hts2 : ∀ c ∈ ts.take 1, isDigitChar c = false)
    (hmax : (digitsVal ds : Int) ≤ 9223372036854775807) :
    ArgReader.tryReadInt ⟨ds ++ ts, 0⟩
      = .ok (some (digitsVal ds), ⟨ds ++ ts, (ds ++ ts).length⟩)
    ∧ ArgReader.readInt ⟨ds ++ ts, 0⟩
      = .ok ((digitsVal ds : Int), ⟨ds ++ ts, (ds ++ ts).length⟩)
    ∧ runGo 8 "depth 5x" = some (.ok { depth := some 5, infinite := false }) := by
  have hts2h : ∀ c, ts.head? = some c → isDigitChar c = false := by
    intro c hc
    apply hts2
    cases ts with
    | nil => simp at hc
    | cons a ts' =>
      simp at hc
      subst hc
      simp
  have htry := tryReadInt_digits ds ts hne hds hts1 hts2h hmax
  refine ⟨htry, ?_, rfl⟩
  simp only [ArgReader.readInt, htry]

theorem claim_C10_witness :
    ArgReader.tryReadInt ⟨"42abc".data, 0⟩ = .ok (some 42, ⟨"42abc".data, 5⟩)
    ∧ runGo 8 "depth 5x" = some (.ok { depth := some 5, infinite := false }) := by
  have h := claim_C10_numeric_word "42".data "abc".data (by decide) (by decide)
    (by decide) (by decide) (by decide)
  exact ⟨h.1, h.2.2⟩
